import Mathlib

/-
Shallow embedding of the Travel_Project repository (src/app.py) for
specification checking.

The repository is a single Streamlit script.  The parts with logic are:
  * `parse_natural_language` (app.py lines 29-91): calls the external
    text-generation service, strips markdown code fences from the raw
    response text with `re.sub(r'<3 backticks>json|<3 backticks>', '', text)`,
    runs `.strip()`, parses the result with `json.loads`, validates that
    `destination` and `duration` are present, applies `setdefault` for
    `budget` / `interests` / `experience_type`, and wraps a scalar-string
    `interests` into a one-element list.  Every failure path (exception from
    the external call, `json.JSONDecodeError`, the explicit `ValueError`,
    and the `TypeError` / `AttributeError` raised when `json.loads` returns
    a non-dict, which is caught by the outer `except Exception`) returns
    `None`.
  * `get_top_attractions` (lines 94-113): a dict lookup mapping the
    experience type to a query phrase (this lookup sits OUTSIDE the
    `try` block, so an unknown experience type raises `KeyError`), an HTTP
    GET, and the comprehension
    `[h3.text for h3 in soup.find_all("h3")[:7] if h3.text and bcs not in h3.text]`
    where `bcs` is the breadcrumb separator character; any exception inside
    the `try` yields the sentinel `["Attractions list unavailable"]`.
    Line 186 displays only `attractions[:5]`.
  * `generate_itinerary` (lines 116-142): builds a prompt from the request
    fields and returns the fixed apology string when the external call
    raises.

Modelling conventions:
  * The external text-generation call and the HTTP-fetch-plus-h3-extraction
    are external collaborators; their behaviour on one call is modelled as
    an `Except Unit` value (exception or result).  For the attraction
    lookup the result is the list of h3 text snippets that the external
    HTML parser would produce.
  * `json.loads` is modelled by an executable recursive-descent JSON parser
    over `List Char` with the same whitespace, escape, literal, and
    duplicate-key (last wins, original position kept) behaviour; JSON
    numbers are restricted to integers (floats, and the non-standard
    `NaN` / `Infinity` constants accepted by Python, are out of the model).
  * Python dicts are association lists with unique keys in insertion order.
  * Debug-mode `st.write` / `st.error` calls only print and are omitted.
-/

/-- A JSON value as produced by `json.loads`, with numbers restricted to
integers. -/
inductive JVal where
  | jnull : JVal
  | jbool : Bool → JVal
  | jnum : Int → JVal
  | jstr : String → JVal
  | jarr : List JVal → JVal
  | jobj : List (String × JVal) → JVal

/-- Python `key in dict`. -/
def hasKey : List (String × JVal) → String → Bool
  | [], _ => false
  | p :: rest, k => p.1 == k || hasKey rest k

/-- Python `dict[key]` (as an `Option`, `none` for a missing key). -/
def getKey : List (String × JVal) → String → Option JVal
  | [], _ => none
  | p :: rest, k => if p.1 == k then some p.2 else getKey rest k

/-- Python `dict[key] = value`: replace the value in place when the key is
present (keeping its position), append otherwise. -/
def setKey : List (String × JVal) → String → JVal → List (String × JVal)
  | [], k, v => [(k, v)]
  | p :: rest, k, v => if p.1 == k then (p.1, v) :: rest else p :: setKey rest k v

/-- Python `dict.setdefault(key, value)` (result dict). -/
def setdefault (kvs : List (String × JVal)) (k : String) (v : JVal) :
    List (String × JVal) :=
  if hasKey kvs k then kvs else kvs ++ [(k, v)]

/-- The four JSON whitespace characters skipped by `json.loads`. -/
def jsonWs (c : Char) : Bool :=
  c = ' ' || c = '\t' || c = '\n' || c = '\r'

/-- Skip JSON whitespace. -/
def skipWs (l : List Char) : List Char :=
  l.dropWhile jsonWs

/-- Value of one hexadecimal digit. -/
def hexDigit? (c : Char) : Option Nat :=
  if '0' ≤ c ∧ c ≤ '9' then some (c.toNat - 48)
  else if 'a' ≤ c ∧ c ≤ 'f' then some (c.toNat - 87)
  else if 'A' ≤ c ∧ c ≤ 'F' then some (c.toNat - 55)
  else none

/-- The single-character JSON string escapes. -/
def escChar? (c : Char) : Option Char :=
  if c = '"' then some '"'
  else if c = '\\' then some '\\'
  else if c = '/' then some '/'
  else if c = 'b' then some '\x08'
  else if c = 'f' then some '\x0c'
  else if c = 'n' then some '\n'
  else if c = 'r' then some '\r'
  else if c = 't' then some '\t'
  else none

/-- Parse the body of a JSON string literal (after the opening quote),
returning the decoded characters and the rest of the input. -/
def pStr : Nat → List Char → Option (List Char × List Char)
  | 0, _ => none
  | _ + 1, [] => none
  | f + 1, c :: rest =>
    if c = '"' then some ([], rest)
    else if c = '\\' then
      match rest with
      | 'u' :: a :: b :: c2 :: d :: r3 =>
        match hexDigit? a, hexDigit? b, hexDigit? c2, hexDigit? d with
        | some x, some y, some z, some w =>
          match pStr f r3 with
          | some (cs, r) =>
            some (Char.ofNat (((x * 16 + y) * 16 + z) * 16 + w) :: cs, r)
          | none => none
        | _, _, _, _ => none
      | e :: r2 =>
        match escChar? e with
        | some ec =>
          match pStr f r2 with
          | some (cs, r) => some (ec :: cs, r)
          | none => none
        | none => none
      | [] => none
    else if c.toNat < 32 then none
    else
      match pStr f rest with
      | some (cs, r) => some (c :: cs, r)
      | none => none

/-- Numeric value of a digit string. -/
def digitsVal (ds : List Char) : Nat :=
  ds.foldl (fun acc c => 10 * acc + (c.toNat - 48)) 0

/-- Parse an unsigned JSON integer (rejecting leading zeros and anything
followed by a fraction or exponent, which is outside the integer model). -/
def pNumCore (l : List Char) : Option (Nat × List Char) :=
  let ds := l.takeWhile Char.isDigit
  let rest := l.dropWhile Char.isDigit
  if ds.isEmpty then none
  else if 1 < ds.length ∧ ds.head? = some '0' then none
  else
    match rest with
    | c :: _ => if c = '.' || c = 'e' || c = 'E' then none else some (digitsVal ds, rest)
    | [] => some (digitsVal ds, rest)

/-- Parse a JSON integer with optional leading minus sign. -/
def pNum (l : List Char) : Option (JVal × List Char) :=
  match l with
  | '-' :: rest =>
    match pNumCore rest with
    | some (n, r) => some (JVal.jnum (-(n : Int)), r)
    | none => none
  | _ =>
    match pNumCore l with
    | some (n, r) => some (JVal.jnum (n : Int), r)
    | none => none

/-- Parser mode: a whole value, the members of an object (after at least one
member is required), or the elements of an array. -/
inductive PMode where
  | value : PMode
  | members : List (String × JVal) → PMode
  | elems : List JVal → PMode

/-- Fuel-based recursive-descent JSON parser (the core of the `json.loads`
model).  Returns the parsed value and the unconsumed input. -/
def pAny : Nat → PMode → List Char → Option (JVal × List Char)
  | 0, _, _ => none
  | f + 1, PMode.value, l =>
    match skipWs l with
    | [] => none
    | c :: rest =>
      if c = '{' then
        match skipWs rest with
        | '}' :: r2 => some (JVal.jobj [], r2)
        | l2 => pAny f (PMode.members []) l2
      else if c = '[' then
        match skipWs rest with
        | ']' :: r2 => some (JVal.jarr [], r2)
        | l2 => pAny f (PMode.elems []) l2
      else if c = '"' then
        match pStr (f + 1) rest with
        | some (cs, r2) => some (JVal.jstr (String.mk cs), r2)
        | none => none
      else if c = 't' then
        if rest.take 3 = ['r', 'u', 'e'] then some (JVal.jbool true, rest.drop 3) else none
      else if c = 'f' then
        if rest.take 4 = ['a', 'l', 's', 'e'] then some (JVal.jbool false, rest.drop 4) else none
      else if c = 'n' then
        if rest.take 3 = ['u', 'l', 'l'] then some (JVal.jnull, rest.drop 3) else none
      else pNum (c :: rest)
  | f + 1, PMode.members acc, l =>
    match skipWs l with
    | '"' :: rest =>
      match pStr (f + 1) rest with
      | some (kcs, r1) =>
        match skipWs r1 with
        | ':' :: r2 =>
          match pAny f PMode.value r2 with
          | some (v, r3) =>
            match skipWs r3 with
            | ',' :: r4 => pAny f (PMode.members (setKey acc (String.mk kcs) v)) r4
            | '}' :: r4 => some (JVal.jobj (setKey acc (String.mk kcs) v), r4)
            | _ => none
          | none => none
        | _ => none
      | none => none
    | _ => none
  | f + 1, PMode.elems acc, l =>
    match pAny f PMode.value l with
    | some (v, r1) =>
      match skipWs r1 with
      | ',' :: r2 => pAny f (PMode.elems (acc ++ [v])) r2
      | ']' :: r2 => some (JVal.jarr (acc ++ [v]), r2)
      | _ => none
    | none => none

/-- Model of Python `json.loads` on a character list: parse one value and
require that only whitespace remains. -/
def json_loads (l : List Char) : Option JVal :=
  match pAny (4 * l.length + 8) PMode.value l with
  | some (v, rest) => if skipWs rest = [] then some v else none
  | none => none

/-- The seven characters of the fence marker with language tag
(three backticks followed by the letters of the json tag), the first
alternative of the regex in app.py line 62. -/
def fenceJson : List Char := ['`', '`', '`', 'j', 's', 'o', 'n']

/-- The three-backtick fence marker, the second alternative of the regex. -/
def fence : List Char := ['`', '`', '`']

/-- Model of `re.sub` with that two-alternative pattern and empty
replacement: scan left to right, at each position try the longer
alternative first, remove a match and continue after it, otherwise keep the
character (app.py line 62). -/
def stripFences : List Char → List Char
  | '`' :: '`' :: '`' :: 'j' :: 's' :: 'o' :: 'n' :: rest => stripFences rest
  | '`' :: '`' :: '`' :: rest => stripFences rest
  | c :: rest => c :: stripFences rest
  | [] => []

/-- The whitespace characters removed by Python `str.strip()` (ASCII
range). -/
def pyIsSpace (c : Char) : Bool :=
  c = ' ' || c = '\t' || c = '\n' || c = '\r' || c = '\x0b' || c = '\x0c'

/-- Model of Python `str.strip()`: drop whitespace from both ends. -/
def pyStrip (l : List Char) : List Char :=
  (((l.dropWhile pyIsSpace).reverse.dropWhile pyIsSpace)).reverse

/-- The cleaned response text handed to `json.loads`:
`re.sub(pattern, '', response.text).strip()` (app.py line 62). -/
def clean_response (text : String) : List Char :=
  pyStrip (stripFences text.toList)

/-- The prompt built by `parse_natural_language` (app.py lines 34-55). -/
def nl_prompt (query : String) : String :=
  "\n    Convert this travel request to JSON format:\n    \"" ++ query ++
  "\"\n    \n    Required fields:\n    - destination (specific location)\n" ++
  "    - duration (in days, as a number)\n    \n" ++
  "    Optional fields with defaults:\n" ++
  "    - budget (\"Budget\", \"Mid-range\", \"Luxury\") - default to \"Mid-range\"\n" ++
  "    - interests (list of activities) - extract from context\n" ++
  "    - experience_type (\"Most Famous\", \"Mix\", \"Offbeat Gems\") - default to \"Mix\"\n" ++
  "    \n    Example output for \"5 days in Kerala with nature focus\":\n" ++
  "    \x7b\n        \"destination\": \"Kerala\",\n        \"duration\": 5,\n" ++
  "        \"budget\": \"Mid-range\",\n        \"interests\": [\"Nature\"],\n" ++
  "        \"experience_type\": \"Mix\"\n    \x7d\n    "

/-- The three `setdefault` calls of `parse_natural_language`
(app.py lines 70-72). -/
def defaulted3 (kvs : List (String × JVal)) : List (String × JVal) :=
  setdefault
    (setdefault (setdefault kvs "budget" (JVal.jstr "Mid-range"))
      "interests" (JVal.jarr []))
    "experience_type" (JVal.jstr "Mix")

/-- The default-and-coerce phase of `parse_natural_language`
(app.py lines 70-76), applied once the required fields are known to be
present: the three `setdefault` calls followed by the wrapping of a
scalar-string `interests` value into a one-element list
(`isinstance(data['interests'], str)`). -/
def applyDefaults (kvs : List (String × JVal)) : List (String × JVal) :=
  match getKey (defaulted3 kvs) "interests" with
  | some (JVal.jstr s) => setKey (defaulted3 kvs) "interests" (JVal.jarr [JVal.jstr s])
  | _ => defaulted3 kvs

/-- Model of `parse_natural_language` (app.py lines 29-91).  The argument
is the outcome of `model.generate_content(prompt)`: an exception
(`Except.error`) or the response text.  `none` models returning `None`.
When `json.loads` yields a non-dict value, the Python membership test or
attribute access raises (`TypeError` / `AttributeError`), which the outer
`except Exception` turns into `None`; the `jobj`-only branch below folds
those paths together. -/
def parse_natural_language (resp : Except Unit String) :
    Option (List (String × JVal)) :=
  match resp with
  | Except.error _ => none
  | Except.ok text =>
    match json_loads (clean_response text) with
    | some (JVal.jobj kvs) =>
      if hasKey kvs "destination" && hasKey kvs "duration" then
        some (applyDefaults kvs)
      else none
    | _ => none

/-- All five fields of the request object are present. -/
def allFieldsDefined (d : List (String × JVal)) : Bool :=
  hasKey d "destination" && hasKey d "duration" && hasKey d "budget" &&
    hasKey d "interests" && hasKey d "experience_type"

/-- The `query_types` dict of `get_top_attractions` (app.py lines 98-102),
read at the experience type: `none` models the `KeyError` that
`query_types[experience_type]` raises for an unknown label. -/
def query_phrase (destination experience_type : String) : Option String :=
  if experience_type = "Most Famous" then some ("top 10 attractions in " ++ destination)
  else if experience_type = "Mix" then some ("best things to do in " ++ destination)
  else if experience_type = "Offbeat Gems" then some ("hidden gems in " ++ destination)
  else none

/-- Query-string URL encoding used at app.py line 103:
`query.replace(' ', '+')` prefixed by the search URL. -/
def searchUrl (query : String) : String :=
  "https://www.google.com/search?q=" ++
    String.mk (query.toList.map (fun c => if c = ' ' then '+' else c))

/-- The breadcrumb separator character filtered out at app.py line 109. -/
def breadcrumbSep : Char := '›'

/-- The filter of the comprehension at app.py line 109:
`if h3.text and breadcrumbSep not in h3.text`. -/
def h3Keep (t : String) : Bool :=
  t ≠ "" && !(t.toList.contains breadcrumbSep)

/-- The list comprehension at app.py line 109: slice the first 7 h3
snippets, THEN filter.  (The slice `[:7]` binds to `soup.find_all("h3")`,
before the `if` filter of the comprehension is applied.) -/
def extract_attractions (headings : List String) : List String :=
  (headings.take 7).filter h3Keep

/-- Model of `get_top_attractions` (app.py lines 94-113).  `fetch` models
`requests.get` composed with the h3-text extraction of the external HTML
parser: for the URL it is given, it either raises or produces the list of
h3 text snippets.  The `query_types[experience_type]` lookup happens
before the `try` block, so its `KeyError` (modelled by `Except.error`)
escapes the function. -/
def get_top_attractions (destination experience_type : String)
    (fetch : String → Except Unit (List String)) : Except Unit (List String) :=
  match query_phrase destination experience_type with
  | none => Except.error ()
  | some q =>
    match fetch (searchUrl q) with
    | Except.error _ => Except.ok ["Attractions list unavailable"]
    | Except.ok headings => Except.ok (extract_attractions headings)

/-- The rendering of the attraction list at app.py line 186: only
`attractions[:5]` is displayed. -/
def displayed_attractions (attractions : List String) : List String :=
  attractions.take 5

/-- The structured request as used by `generate_itinerary`: the five fields
of a valid `TravelRequest` (spec section 3). -/
structure TravelRequest where
  destination : String
  duration : Int
  budget : String
  interests : List String
  experience_type : String

/-- Python `', '.join`. -/
def joinComma : List String → String
  | [] => ""
  | [s] => s
  | s :: rest => s ++ ", " ++ joinComma rest

/-- The prompt built by `generate_itinerary` (app.py lines 120-135). -/
def itinerary_prompt (r : TravelRequest) : String :=
  "\n    Create a detailed " ++ toString r.duration ++ "-day " ++ r.budget ++
  " itinerary for " ++ r.destination ++ ".\n    \n    Preferences:\n" ++
  "    - Interests: " ++
  (if r.interests.isEmpty then "Not specified" else joinComma r.interests) ++
  "\n    - Experience Type: " ++ r.experience_type ++ "\n    \n" ++
  "    Include these sections for each day:\n    - Morning activities\n" ++
  "    - Afternoon activities\n    - Evening activities\n" ++
  "    - Recommended dining options matching the budget\n" ++
  "    - Transportation tips between locations\n    \n" ++
  "    Format the response in markdown with clear headings.\n    "

/-- Model of `generate_itinerary` (app.py lines 116-142): one call to the
external text-generation service with the itinerary prompt; an exception
yields the fixed fallback message. -/
def generate_itinerary (r : TravelRequest)
    (gen : String → Except Unit String) : String :=
  match gen (itinerary_prompt r) with
  | Except.ok text => text
  | Except.error _ => "Could not generate itinerary. Please try again with more details."

/-- Whether a character list contains the three-backtick fence as a
contiguous substring. -/
def hasFence : List Char → Bool
  | [] => false
  | c :: rest => (c :: rest).take 3 == fence || hasFence rest

/-- Length of the leading run of backticks. -/
def leadTicks (l : List Char) : Nat :=
  (l.takeWhile (fun c => c == '`')).length

/-! Lemmas about the dict operations. -/

theorem hasKey_append (l1 l2 : List (String × JVal)) (k : String) :
    hasKey (l1 ++ l2) k = (hasKey l1 k || hasKey l2 k) := by
  induction l1 with
  | nil => simp [hasKey]
  | cons p rest ih => simp [hasKey, ih, Bool.or_assoc]

theorem getKey_append_of_absent (l1 l2 : List (String × JVal)) (k : String)
    (h : hasKey l1 k = false) : getKey (l1 ++ l2) k = getKey l2 k := by
  induction l1 with
  | nil => simp
  | cons p rest ih =>
    simp [hasKey] at h
    simp [getKey, h.1, ih h.2]

theorem getKey_append_of_present (l1 l2 : List (String × JVal)) (k : String)
    (h : hasKey l1 k = true) : getKey (l1 ++ l2) k = getKey l1 k := by
  induction l1 with
  | nil => simp [hasKey] at h
  | cons p rest ih =>
    by_cases hp : p.1 = k
    · simp [getKey, hp]
    · simp [hasKey, hp] at h
      simp [getKey, hp, ih h]

theorem hasKey_single_self (k : String) (v : JVal) : hasKey [(k, v)] k = true := by
  simp [hasKey]

theorem hasKey_setdefault_self (kvs : List (String × JVal)) (k : String) (v : JVal) :
    hasKey (setdefault kvs k v) k = true := by
  unfold setdefault
  by_cases h : hasKey kvs k = true
  · simp [h]
  · simp [h, hasKey_append, hasKey]

theorem hasKey_mono_setdefault (kvs : List (String × JVal)) (k k2 : String) (v : JVal)
    (h : hasKey kvs k2 = true) : hasKey (setdefault kvs k v) k2 = true := by
  unfold setdefault
  by_cases hk : hasKey kvs k = true
  · simp [hk, h]
  · simp [hk, hasKey_append, h]

theorem hasKey_setdefault_ne (kvs : List (String × JVal)) (k k2 : String) (v : JVal)
    (h : k2 ≠ k) : hasKey (setdefault kvs k v) k2 = hasKey kvs k2 := by
  unfold setdefault
  by_cases hk : hasKey kvs k = true
  · simp [hk]
  · simp [hk, hasKey_append, hasKey, Ne.symm h]

theorem getKey_setdefault_absent (kvs : List (String × JVal)) (k : String) (v : JVal)
    (h : hasKey kvs k = false) : getKey (setdefault kvs k v) k = some v := by
  unfold setdefault
  simp [h, getKey_append_of_absent _ _ _ h, getKey]

theorem getKey_none_of_absent (kvs : List (String × JVal)) (k : String)
    (h : hasKey kvs k = false) : getKey kvs k = none := by
  induction kvs with
  | nil => simp [getKey]
  | cons p rest ih =>
    simp [hasKey] at h
    simp [getKey, h.1, ih h.2]

theorem getKey_setdefault_ne (kvs : List (String × JVal)) (k k2 : String) (v : JVal)
    (h : k2 ≠ k) : getKey (setdefault kvs k v) k2 = getKey kvs k2 := by
  unfold setdefault
  by_cases hk : hasKey kvs k = true
  · simp [hk]
  · simp [hk]
    by_cases h2 : hasKey kvs k2 = true
    · exact getKey_append_of_present _ _ _ h2
    · rw [getKey_append_of_absent _ _ _ (by simp [h2])]
      rw [getKey_none_of_absent kvs k2 (by simp [h2])]
      simp [getKey, Ne.symm h]

theorem setdefault_present (kvs : List (String × JVal)) (k : String) (v : JVal)
    (h : hasKey kvs k = true) : setdefault kvs k v = kvs := by
  unfold setdefault
  simp [h]

theorem hasKey_mono_setKey (kvs : List (String × JVal)) (k k2 : String) (v : JVal)
    (h : hasKey kvs k2 = true) : hasKey (setKey kvs k v) k2 = true := by
  induction kvs with
  | nil => simp [hasKey] at h
  | cons p rest ih =>
    simp [hasKey] at h
    by_cases hpk : p.1 = k
    · simp [setKey, hasKey, hpk] at h ⊢
      rcases h with h | h
      · exact Or.inl h
      · exact Or.inr h
    · simp [setKey, hasKey, hpk]
      rcases h with h | h
      · exact Or.inl h
      · exact Or.inr (ih h)

theorem getKey_setKey_self (kvs : List (String × JVal)) (k : String) (v : JVal) :
    getKey (setKey kvs k v) k = some v := by
  induction kvs with
  | nil => simp [setKey, getKey]
  | cons p rest ih =>
    by_cases hpk : p.1 = k
    · simp [setKey, getKey, hpk]
    · simp [setKey, getKey, hpk, ih]

theorem getKey_setKey_ne (kvs : List (String × JVal)) (k k2 : String) (v : JVal)
    (h : k2 ≠ k) : getKey (setKey kvs k v) k2 = getKey kvs k2 := by
  induction kvs with
  | nil => simp [setKey, getKey, Ne.symm h]
  | cons p rest ih =>
    by_cases hpk : p.1 = k
    · have h2 : ¬(p.1 = k2) := by rw [hpk]; exact Ne.symm h
      simp [setKey, getKey, hpk, h2, Ne.symm h]
    · simp [setKey, getKey, hpk, ih]

theorem hasKey_of_getKey_some (kvs : List (String × JVal)) (k : String) (v : JVal)
    (h : getKey kvs k = some v) : hasKey kvs k = true := by
  induction kvs with
  | nil => simp [getKey] at h
  | cons p rest ih =>
    unfold getKey at h
    by_cases hp : p.1 = k
    · simp [hasKey, hp]
    · simp [hp] at h
      simp [hasKey, ih h]

theorem getKey_some_of_hasKey (kvs : List (String × JVal)) (k : String)
    (h : hasKey kvs k = true) : ∃ v, getKey kvs k = some v := by
  induction kvs with
  | nil => simp [hasKey] at h
  | cons p rest ih =>
    simp [hasKey] at h
    by_cases hp : p.1 = k
    · exact ⟨p.2, by simp [getKey, hp]⟩
    · rcases h with h | h
      · exact absurd h hp
      · rcases ih h with ⟨v, hv⟩
        exact ⟨v, by simp [getKey, hp, hv]⟩

/-! Lemmas about the defaulting phase. -/

theorem hasKey_defaulted3_mono (kvs : List (String × JVal)) (k : String)
    (h : hasKey kvs k = true) : hasKey (defaulted3 kvs) k = true := by
  unfold defaulted3
  exact hasKey_mono_setdefault _ _ _ _
    (hasKey_mono_setdefault _ _ _ _ (hasKey_mono_setdefault _ _ _ _ h))

theorem hasKey_defaulted3_budget (kvs : List (String × JVal)) :
    hasKey (defaulted3 kvs) "budget" = true := by
  unfold defaulted3
  exact hasKey_mono_setdefault _ _ _ _
    (hasKey_mono_setdefault _ _ _ _ (hasKey_setdefault_self _ _ _))

theorem hasKey_defaulted3_interests (kvs : List (String × JVal)) :
    hasKey (defaulted3 kvs) "interests" = true := by
  unfold defaulted3
  exact hasKey_mono_setdefault _ _ _ _ (hasKey_setdefault_self _ _ _)

theorem hasKey_defaulted3_exp (kvs : List (String × JVal)) :
    hasKey (defaulted3 kvs) "experience_type" = true := by
  unfold defaulted3
  exact hasKey_setdefault_self _ _ _

theorem getKey_defaulted3_budget_absent (kvs : List (String × JVal))
    (h : hasKey kvs "budget" = false) :
    getKey (defaulted3 kvs) "budget" = some (JVal.jstr "Mid-range") := by
  unfold defaulted3
  rw [getKey_setdefault_ne _ _ _ _ (by decide)]
  rw [getKey_setdefault_ne _ _ _ _ (by decide)]
  exact getKey_setdefault_absent _ _ _ h

theorem getKey_defaulted3_interests_absent (kvs : List (String × JVal))
    (h : hasKey kvs "interests" = false) :
    getKey (defaulted3 kvs) "interests" = some (JVal.jarr []) := by
  unfold defaulted3
  rw [getKey_setdefault_ne _ _ _ _ (by decide)]
  have h1 : hasKey (setdefault kvs "budget" (JVal.jstr "Mid-range")) "interests" = false := by
    rw [hasKey_setdefault_ne _ _ _ _ (by decide)]
    exact h
  exact getKey_setdefault_absent _ _ _ h1

theorem getKey_defaulted3_exp_absent (kvs : List (String × JVal))
    (h : hasKey kvs "experience_type" = false) :
    getKey (defaulted3 kvs) "experience_type" = some (JVal.jstr "Mix") := by
  unfold defaulted3
  have h2 : hasKey
      (setdefault (setdefault kvs "budget" (JVal.jstr "Mid-range")) "interests" (JVal.jarr []))
      "experience_type" = false := by
    rw [hasKey_setdefault_ne _ _ _ _ (by decide), hasKey_setdefault_ne _ _ _ _ (by decide)]
    exact h
  exact getKey_setdefault_absent _ _ _ h2

theorem getKey_defaulted3_ne (kvs : List (String × JVal)) (k : String)
    (h1 : k ≠ "budget") (h2 : k ≠ "interests") (h3 : k ≠ "experience_type") :
    getKey (defaulted3 kvs) k = getKey kvs k := by
  unfold defaulted3
  rw [getKey_setdefault_ne _ _ _ _ h3, getKey_setdefault_ne _ _ _ _ h2,
    getKey_setdefault_ne _ _ _ _ h1]

theorem getKey_defaulted3_interests_scalar (kvs : List (String × JVal)) (s : String)
    (h : getKey kvs "interests" = some (JVal.jstr s)) :
    getKey (defaulted3 kvs) "interests" = some (JVal.jstr s) := by
  unfold defaulted3
  rw [getKey_setdefault_ne _ _ _ _ (by decide)]
  have hk : hasKey (setdefault kvs "budget" (JVal.jstr "Mid-range")) "interests" = true := by
    apply hasKey_mono_setdefault
    exact hasKey_of_getKey_some _ _ _ h
  rw [setdefault_present _ _ _ hk]
  rw [getKey_setdefault_ne _ _ _ _ (by decide)]
  exact h

theorem allFieldsDefined_applyDefaults (kvs : List (String × JVal))
    (hdest : hasKey kvs "destination" = true) (hdur : hasKey kvs "duration" = true) :
    allFieldsDefined (applyDefaults kvs) = true := by
  have hd := hasKey_defaulted3_mono kvs _ hdest
  have hu := hasKey_defaulted3_mono kvs _ hdur
  have hb := hasKey_defaulted3_budget kvs
  have hi := hasKey_defaulted3_interests kvs
  have he := hasKey_defaulted3_exp kvs
  unfold applyDefaults
  cases hm : getKey (defaulted3 kvs) "interests" with
  | none => simp [allFieldsDefined, hd, hu, hb, hi, he]
  | some v =>
    cases v with
    | jstr s =>
      simp [allFieldsDefined, hasKey_mono_setKey _ _ _ _ hd, hasKey_mono_setKey _ _ _ _ hu,
        hasKey_mono_setKey _ _ _ _ hb, hasKey_mono_setKey _ _ _ _ hi,
        hasKey_mono_setKey _ _ _ _ he]
    | jnull => simp [allFieldsDefined, hd, hu, hb, hi, he]
    | jbool b => simp [allFieldsDefined, hd, hu, hb, hi, he]
    | jnum n => simp [allFieldsDefined, hd, hu, hb, hi, he]
    | jarr xs => simp [allFieldsDefined, hd, hu, hb, hi, he]
    | jobj o => simp [allFieldsDefined, hd, hu, hb, hi, he]

theorem getKey_applyDefaults_budget_absent (kvs : List (String × JVal))
    (h : hasKey kvs "budget" = false) :
    getKey (applyDefaults kvs) "budget" = some (JVal.jstr "Mid-range") := by
  have hb := getKey_defaulted3_budget_absent kvs h
  unfold applyDefaults
  cases hm : getKey (defaulted3 kvs) "interests" with
  | none => exact hb
  | some v =>
    cases v with
    | jstr s => rw [getKey_setKey_ne _ _ _ _ (by decide)]; exact hb
    | jnull => exact hb
    | jbool b => exact hb
    | jnum n => exact hb
    | jarr xs => exact hb
    | jobj o => exact hb

theorem getKey_applyDefaults_interests_absent (kvs : List (String × JVal))
    (h : hasKey kvs "interests" = false) :
    getKey (applyDefaults kvs) "interests" = some (JVal.jarr []) := by
  have hi := getKey_defaulted3_interests_absent kvs h
  unfold applyDefaults
  rw [hi]
  exact hi

theorem getKey_applyDefaults_exp_absent (kvs : List (String × JVal))
    (h : hasKey kvs "experience_type" = false) :
    getKey (applyDefaults kvs) "experience_type" = some (JVal.jstr "Mix") := by
  have he := getKey_defaulted3_exp_absent kvs h
  unfold applyDefaults
  cases hm : getKey (defaulted3 kvs) "interests" with
  | none => exact he
  | some v =>
    cases v with
    | jstr s => rw [getKey_setKey_ne _ _ _ _ (by decide)]; exact he
    | jnull => exact he
    | jbool b => exact he
    | jnum n => exact he
    | jarr xs => exact he
    | jobj o => exact he

theorem getKey_applyDefaults_interests_scalar (kvs : List (String × JVal)) (s : String)
    (h : getKey kvs "interests" = some (JVal.jstr s)) :
    getKey (applyDefaults kvs) "interests" = some (JVal.jarr [JVal.jstr s]) := by
  have hi := getKey_defaulted3_interests_scalar kvs s h
  unfold applyDefaults
  rw [hi]
  exact getKey_setKey_self _ _ _

/-! Characterization of the normalizer. -/

theorem parse_ok_some (text : String) (kvs : List (String × JVal))
    (hparse : json_loads (clean_response text) = some (JVal.jobj kvs))
    (hdest : hasKey kvs "destination" = true) (hdur : hasKey kvs "duration" = true) :
    parse_natural_language (Except.ok text) = some (applyDefaults kvs) := by
  dsimp only [parse_natural_language]
  rw [hparse]
  simp [hdest, hdur]

theorem parse_ok_none_of_missing (text : String) (kvs : List (String × JVal))
    (hparse : json_loads (clean_response text) = some (JVal.jobj kvs))
    (hmiss : hasKey kvs "destination" = false ∨ hasKey kvs "duration" = false) :
    parse_natural_language (Except.ok text) = none := by
  dsimp only [parse_natural_language]
  rw [hparse]
  rcases hmiss with h | h <;> simp [h]

theorem parse_some_fields (resp : Except Unit String) (d : List (String × JVal))
    (h : parse_natural_language resp = some d) : allFieldsDefined d = true := by
  cases resp with
  | error u => simp [parse_natural_language] at h
  | ok text =>
    dsimp only [parse_natural_language] at h
    cases hj : json_loads (clean_response text) with
    | none => rw [hj] at h; simp at h
    | some v =>
      rw [hj] at h
      cases v with
      | jobj kvs =>
        dsimp only at h
        by_cases hc : (hasKey kvs "destination" && hasKey kvs "duration") = true
        · rw [if_pos hc] at h
          injection h with h
          subst h
          simp at hc
          exact allFieldsDefined_applyDefaults kvs hc.1 hc.2
        · rw [if_neg hc] at h; exact absurd h (by simp)
      | jnull => simp at h
      | jbool b => simp at h
      | jnum n => simp at h
      | jstr s => simp at h
      | jarr xs => simp at h

/-- Claim C1: for every generator response whose text is valid JSON
containing both the destination and duration keys, the normalizer returns
a request object in which all five fields are defined, with budget
defaulting to Mid-range, interests defaulting to the empty sequence, and
experience_type defaulting to Mix whenever the corresponding key is absent
from the JSON. -/
theorem c1_required_fields_and_defaults (text : String) (kvs : List (String × JVal))
    (hparse : json_loads (clean_response text) = some (JVal.jobj kvs))
    (hdest : hasKey kvs "destination" = true) (hdur : hasKey kvs "duration" = true) :
    ∃ d, parse_natural_language (Except.ok text) = some d ∧
      allFieldsDefined d = true ∧
      (hasKey kvs "budget" = false → getKey d "budget" = some (JVal.jstr "Mid-range")) ∧
      (hasKey kvs "interests" = false → getKey d "interests" = some (JVal.jarr [])) ∧
      (hasKey kvs "experience_type" = false →
        getKey d "experience_type" = some (JVal.jstr "Mix")) := by
  refine ⟨applyDefaults kvs, parse_ok_some text kvs hparse hdest hdur, ?_, ?_, ?_, ?_⟩
  · exact allFieldsDefined_applyDefaults kvs hdest hdur
  · exact getKey_applyDefaults_budget_absent kvs
  · exact getKey_applyDefaults_interests_absent kvs
  · exact getKey_applyDefaults_exp_absent kvs

/-- Witness for C1 at the concrete stub response used in the spec's
end-to-end scenario, with the optional fields absent. -/
theorem c1_required_fields_and_defaults_witness :
    ∃ d, parse_natural_language
        (Except.ok "\x7b\"destination\": \"Kerala\", \"duration\": 5\x7d") = some d ∧
      allFieldsDefined d = true ∧
      (hasKey [("destination", JVal.jstr "Kerala"), ("duration", JVal.jnum 5)] "budget" = false →
        getKey d "budget" = some (JVal.jstr "Mid-range")) ∧
      (hasKey [("destination", JVal.jstr "Kerala"), ("duration", JVal.jnum 5)] "interests" = false →
        getKey d "interests" = some (JVal.jarr [])) ∧
      (hasKey [("destination", JVal.jstr "Kerala"), ("duration", JVal.jnum 5)] "experience_type" = false →
        getKey d "experience_type" = some (JVal.jstr "Mix")) :=
  c1_required_fields_and_defaults "\x7b\"destination\": \"Kerala\", \"duration\": 5\x7d"
    [("destination", JVal.jstr "Kerala"), ("duration", JVal.jnum 5)]
    (by rfl) (by rfl) (by rfl)

/-- Claim C2: for every generator response whose text parses as JSON but is
missing the destination key or the duration key, the normalizer returns
None, never a partially-filled request object. -/
theorem c2_missing_required_rejected (text : String) (kvs : List (String × JVal))
    (hparse : json_loads (clean_response text) = some (JVal.jobj kvs))
    (hmiss : hasKey kvs "destination" = false ∨ hasKey kvs "duration" = false) :
    parse_natural_language (Except.ok text) = none :=
  parse_ok_none_of_missing text kvs hparse hmiss

/-- Witness for C2: a response with only the duration key. -/
theorem c2_missing_required_rejected_witness :
    parse_natural_language (Except.ok "\x7b\"duration\": 5\x7d") = none :=
  c2_missing_required_rejected "\x7b\"duration\": 5\x7d" [("duration", JVal.jnum 5)]
    (by rfl) (Or.inl (by rfl))

/-- Claim C5: for every generator response whose JSON has destination and
duration present and whose interests value is a scalar string s, the
normalizer returns a request object whose interests equal the one-element
sequence containing s, not a sequence of the characters of s. -/
theorem c5_scalar_interests_wrapped (text : String) (kvs : List (String × JVal)) (s : String)
    (hparse : json_loads (clean_response text) = some (JVal.jobj kvs))
    (hdest : hasKey kvs "destination" = true) (hdur : hasKey kvs "duration" = true)
    (hint : getKey kvs "interests" = some (JVal.jstr s)) :
    ∃ d, parse_natural_language (Except.ok text) = some d ∧
      getKey d "interests" = some (JVal.jarr [JVal.jstr s]) :=
  ⟨applyDefaults kvs, parse_ok_some text kvs hparse hdest hdur,
    getKey_applyDefaults_interests_scalar kvs s hint⟩

/-- Witness for C5: a response whose interests field is the scalar string
hiking. -/
theorem c5_scalar_interests_wrapped_witness :
    ∃ d, parse_natural_language
        (Except.ok "\x7b\"destination\": \"A\", \"duration\": 1, \"interests\": \"hiking\"\x7d") =
          some d ∧
      getKey d "interests" = some (JVal.jarr [JVal.jstr "hiking"]) :=
  c5_scalar_interests_wrapped
    "\x7b\"destination\": \"A\", \"duration\": 1, \"interests\": \"hiking\"\x7d"
    [("destination", JVal.jstr "A"), ("duration", JVal.jnum 1),
      ("interests", JVal.jstr "hiking")] "hiking"
    (by rfl) (by rfl) (by rfl) (by rfl)

theorem strip_fenceJson_append (l : List Char) :
    stripFences (fenceJson ++ l) = stripFences l := rfl

theorem strip_fence_nil : stripFences fence = [] := rfl

/-- The json tag characters of the longer fence alternative. -/
def jsonTag : List Char := ['j', 's', 'o', 'n']

theorem strip_cons_gen (a : Char) (t : List Char)
    (h7 : (a :: t).take 7 ≠ fenceJson) (h3 : (a :: t).take 3 ≠ fence) :
    stripFences (a :: t) = a :: stripFences t := by
  rw [stripFences.eq_def]
  split
  · rename_i rest heq
    exact absurd (by rw [heq]; rfl) h7
  · rename_i rest heq
    exact absurd (by rw [heq]; rfl) h3
  · rename_i c rest hneg1 hneg2 heq
    injection heq with e1 e2
    subst e1; subst e2
    rfl
  · rename_i heq
    exact absurd heq (by simp)

theorem strip_fence_append (x : List Char) (hx : x.take 4 ≠ jsonTag) :
    stripFences (fence ++ x) = stripFences x := by
  show stripFences ('`' :: '`' :: '`' :: x) = stripFences x
  rw [stripFences.eq_def]
  split
  · rename_i rest heq
    injection heq with e1 heq; injection heq with e2 heq; injection heq with e3 heq
    exact absurd (by rw [heq]; rfl) hx
  · rename_i rest heq
    injection heq with e1 heq; injection heq with e2 heq; injection heq with e3 heq
    rw [heq]
  · rename_i c rest hneg1 hneg2 heq
    injection heq with e1 e2
    exact absurd (hneg2 x e1.symm e2.symm) not_false
  · rename_i heq
    exact absurd heq (by simp)

theorem strip_cons_ne (c : Char) (rest : List Char) (h : c ≠ '`') :
    stripFences (c :: rest) = c :: stripFences rest := by
  rw [stripFences.eq_def]
  split
  · rename_i rest2 heq
    injection heq with e1 e2
    exact absurd e1 h
  · rename_i rest2 heq
    injection heq with e1 e2
    exact absurd e1 h
  · rename_i c2 rest2 hneg1 hneg2 heq
    injection heq with e1 e2
    subst e1; subst e2
    rfl
  · rename_i heq
    exact absurd heq (by simp)

/-- The characters that can occur in a regex match of the fence pattern. -/
def patChars : List Char := ['`', 'j', 's', 'o', 'n']

theorem take_ne_extend (l : List Char) (c : Char) (r : List Char) (k : Nat)
    (target : List Char) (hsub : ∀ x ∈ target, x ∈ patChars) (hc : c ∉ patChars)
    (h : l.take k ≠ target) : (l ++ c :: r).take k ≠ target := by
  intro hx
  by_cases hl : k ≤ l.length
  · exact h (by rw [← hx, List.take_append_of_le_length hl])
  · push_neg at hl
    apply hc
    apply hsub c
    rw [← hx, List.take_append_eq_append_take]
    apply List.mem_append_right
    have hpos : k - l.length = (k - l.length - 1) + 1 := by omega
    rw [hpos, List.take_succ_cons]
    exact List.mem_cons_self _ _

theorem strip_factor_aux (c : Char) (hc : c ∉ patChars) :
    ∀ (n : Nat) (l r : List Char), l.length ≤ n →
      stripFences (l ++ c :: r) = stripFences l ++ c :: stripFences r := by
  have hcne : c ≠ '`' := fun he => hc (he ▸ (by decide : '`' ∈ patChars))
  intro n
  induction n with
  | zero =>
    intro l r hl
    have : l = [] := List.length_eq_zero.mp (Nat.le_zero.mp hl)
    subst this
    simp [strip_cons_ne c r hcne, stripFences]
  | succ n ih =>
    intro l r hl
    match l with
    | [] => simp [strip_cons_ne c r hcne, stripFences]
    | a :: t =>
      by_cases h7 : (a :: t).take 7 = fenceJson
      · have hlen : 7 ≤ (a :: t).length := by
          have := congrArg List.length h7
          simp [List.length_take, fenceJson] at this
          simp [List.length_cons]
          omega
        have hl7 : a :: t = fenceJson ++ (a :: t).drop 7 := by
          conv_lhs => rw [← List.take_append_drop 7 (a :: t)]
          rw [h7]
        rw [hl7, List.append_assoc, strip_fenceJson_append, strip_fenceJson_append]
        exact ih ((a :: t).drop 7) r (by simp only [List.length_drop, List.length_cons] at hl ⊢; omega)
      · by_cases h3 : (a :: t).take 3 = fence
        · have hlen : 3 ≤ (a :: t).length := by
            have := congrArg List.length h3
            simp [List.length_take, fence] at this
            simp [List.length_cons]
            omega
          have hl3 : a :: t = fence ++ (a :: t).drop 3 := by
            conv_lhs => rw [← List.take_append_drop 3 (a :: t)]
            rw [h3]
          have hj : ((a :: t).drop 3).take 4 ≠ jsonTag := by
            intro hx
            apply h7
            rw [show (7 : Nat) = 3 + 4 from rfl, List.take_add, h3, hx]
            rfl
          have hj2 : ((a :: t).drop 3 ++ c :: r).take 4 ≠ jsonTag :=
            take_ne_extend _ c r 4 jsonTag (by decide) hc hj
          rw [hl3, List.append_assoc, strip_fence_append _ hj2, strip_fence_append _ hj]
          exact ih ((a :: t).drop 3) r (by simp only [List.length_drop, List.length_cons] at hl ⊢; omega)
        · have h7c : ((a :: t) ++ c :: r).take 7 ≠ fenceJson :=
            take_ne_extend _ c r 7 fenceJson (by decide) hc h7
          have h3c : ((a :: t) ++ c :: r).take 3 ≠ fence :=
            take_ne_extend _ c r 3 fence (by decide) hc h3
          have e1 : (a :: t) ++ c :: r = a :: (t ++ c :: r) := rfl
          rw [e1] at h7c h3c ⊢
          rw [strip_cons_gen a _ h7c h3c, strip_cons_gen a t h7 h3]
          rw [ih t r (by simp at hl; omega)]
          simp

theorem strip_factor (c : Char) (hc : c ∉ patChars) (l r : List Char) :
    stripFences (l ++ c :: r) = stripFences l ++ c :: stripFences r :=
  strip_factor_aux c hc l.length l r le_rfl

theorem pyStrip_cons_ws (c : Char) (hc : pyIsSpace c = true) (l : List Char) :
    pyStrip (c :: l) = pyStrip l := by
  simp [pyStrip, List.dropWhile_cons, hc]

theorem pyStrip_append_ws (l : List Char) (c : Char) (hc : pyIsSpace c = true) :
    pyStrip (l ++ [c]) = pyStrip l := by
  induction l with
  | nil => simp [pyStrip, List.dropWhile, hc]
  | cons a t ih =>
    by_cases ha : pyIsSpace a = true
    · rw [show (a :: t) ++ [c] = a :: (t ++ [c]) from rfl,
        pyStrip_cons_ws a ha, pyStrip_cons_ws a ha, ih]
    · have h1 : List.dropWhile pyIsSpace (a :: (t ++ [c])) = a :: (t ++ [c]) := by
        rw [List.dropWhile_cons]
        simp [ha]
      have h2 : List.dropWhile pyIsSpace (a :: t) = a :: t := by
        rw [List.dropWhile_cons]
        simp [ha]
      unfold pyStrip
      rw [show (a :: t) ++ [c] = a :: (t ++ [c]) from rfl, h1, h2]
      have hrev : (a :: (t ++ [c])).reverse = c :: (a :: t).reverse := by
        simp
      rw [hrev, List.dropWhile_cons]
      simp only [hc, if_true]

theorem strip_fence_single : stripFences fence = [] := rfl

theorem clean_wrap (s : String) :
    clean_response ("```json\n" ++ s ++ "\n```") = clean_response s := by
  unfold clean_response
  have htl : ("```json\n" ++ s ++ "\n```").toList =
      fenceJson ++ '\n' :: (s.toList ++ '\n' :: fence) := by
    show ("```json\n".data ++ s.data ++ "\n```".data) = _
    simp [fenceJson, fence]
  rw [htl, strip_fenceJson_append, strip_cons_ne '\n' _ (by decide),
    strip_factor '\n' (by decide) s.toList fence, strip_fence_single,
    pyStrip_cons_ws '\n' (by decide)]
  exact pyStrip_append_ws _ '\n' (by decide)

theorem leadTicks_nil : leadTicks [] = 0 := rfl

theorem leadTicks_cons_tick (l : List Char) : leadTicks ('`' :: l) = leadTicks l + 1 := by
  simp [leadTicks, List.takeWhile_cons]

theorem leadTicks_cons_ne (c : Char) (l : List Char) (h : c ≠ '`') :
    leadTicks (c :: l) = 0 := by
  simp [leadTicks, List.takeWhile_cons, h]

theorem leadTicks_fenceJson_append (x : List Char) :
    leadTicks (fenceJson ++ x) = 3 := rfl

theorem leadTicks_fence_append (x : List Char) :
    leadTicks (fence ++ x) = leadTicks x + 3 := by
  show leadTicks ('`' :: '`' :: '`' :: x) = leadTicks x + 3
  rw [leadTicks_cons_tick, leadTicks_cons_tick, leadTicks_cons_tick]

theorem take2_ticks_iff (x : List Char) :
    x.take 2 = ['`', '`'] ↔ 2 ≤ leadTicks x := by
  match x with
  | [] => simp [leadTicks]
  | [c] =>
    constructor
    · intro h; simp at h
    · intro h
      by_cases hc : c = '`'
      · subst hc; rw [leadTicks_cons_tick] at h; simp [leadTicks] at h
      · rw [leadTicks_cons_ne c [] hc] at h; omega
  | c1 :: c2 :: t =>
    constructor
    · intro h
      rw [show (2 : Nat) = 1 + 1 from rfl, List.take_succ_cons, List.take_succ_cons] at h
      injection h with e1 h
      injection h with e2 h
      subst e1; subst e2
      rw [leadTicks_cons_tick, leadTicks_cons_tick]
      omega
    · intro h
      by_cases h1 : c1 = '`'
      · by_cases h2 : c2 = '`'
        · subst h1; subst h2; rfl
        · subst h1
          rw [leadTicks_cons_tick, leadTicks_cons_ne c2 t h2] at h
          omega
      · rw [leadTicks_cons_ne c1 _ h1] at h
        omega

theorem take3_fence_iff (a : Char) (x : List Char) :
    (a :: x).take 3 = fence ↔ (a = '`' ∧ x.take 2 = ['`', '`']) := by
  rw [show (3 : Nat) = 2 + 1 from rfl, List.take_succ_cons]
  constructor
  · intro h
    injection h with e1 e2
    exact ⟨e1, e2⟩
  · intro ⟨e1, e2⟩
    rw [e1, e2]
    rfl

theorem strip_invariant_aux : ∀ (n : Nat) (l : List Char), l.length ≤ n →
    hasFence (stripFences l) = false ∧
    leadTicks (stripFences l) ≤ min (leadTicks l) 2 := by
  intro n
  induction n with
  | zero =>
    intro l hl
    have : l = [] := List.length_eq_zero.mp (Nat.le_zero.mp hl)
    subst this
    simp [stripFences, hasFence, leadTicks]
  | succ n ih =>
    intro l hl
    match l with
    | [] => simp [stripFences, hasFence, leadTicks]
    | a :: t =>
      by_cases h7 : (a :: t).take 7 = fenceJson
      · have hl7 : a :: t = fenceJson ++ (a :: t).drop 7 := by
          conv_lhs => rw [← List.take_append_drop 7 (a :: t)]
          rw [h7]
        rw [hl7, strip_fenceJson_append, leadTicks_fenceJson_append]
        have hih := ih ((a :: t).drop 7) (by simp only [List.length_drop]; omega)
        exact ⟨hih.1, by omega⟩
      · by_cases h3 : (a :: t).take 3 = fence
        · have hl3 : a :: t = fence ++ (a :: t).drop 3 := by
            conv_lhs => rw [← List.take_append_drop 3 (a :: t)]
            rw [h3]
          have hj : ((a :: t).drop 3).take 4 ≠ jsonTag := by
            intro hx
            apply h7
            rw [show (7 : Nat) = 3 + 4 from rfl, List.take_add, h3, hx]
            rfl
          rw [hl3, strip_fence_append _ hj, leadTicks_fence_append]
          have hih := ih ((a :: t).drop 3) (by simp only [List.length_drop]; omega)
          exact ⟨hih.1, by omega⟩
        · rw [strip_cons_gen a t h7 h3]
          have hih := ih t (by simp at hl; omega)
          by_cases ha : a = '`'
          · subst ha
            have ht2 : leadTicks t ≤ 1 := by
              by_contra hcon
              push_neg at hcon
              exact h3 ((take3_fence_iff '`' t).mpr ⟨rfl, (take2_ticks_iff t).mpr hcon⟩)
            have hst : leadTicks (stripFences t) ≤ 1 := by
              have := hih.2
              omega
            constructor
            · rw [hasFence]
              simp only [Bool.or_eq_false_iff]
              refine ⟨?_, hih.1⟩
              rw [beq_eq_false_iff_ne]
              intro hfe
              have := (take3_fence_iff '`' (stripFences t)).mp hfe
              have := (take2_ticks_iff (stripFences t)).mp this.2
              omega
            · rw [leadTicks_cons_tick, leadTicks_cons_tick]
              have := hih.2
              omega
          · constructor
            · rw [hasFence]
              simp only [Bool.or_eq_false_iff]
              refine ⟨?_, hih.1⟩
              rw [beq_eq_false_iff_ne]
              intro hfe
              exact ha ((take3_fence_iff a (stripFences t)).mp hfe).1
            · rw [leadTicks_cons_ne a _ ha, leadTicks_cons_ne a _ ha]
              omega

theorem strip_no_fence (l : List Char) : hasFence (stripFences l) = false :=
  (strip_invariant_aux l.length l le_rfl).1

/-- Claim C3: for every input query and every behaviour of the external
text-generation call, the normalizer never raises past its boundary: it is
a total function returning either a request object with all five fields
defined or None; an exception from the external call gives None, the same
result as any response whose cleaned text fails to parse as JSON. -/
theorem c3_never_raises (query : String) (gen : String → Except Unit String) :
    (parse_natural_language (gen (nl_prompt query)) = none ∨
      ∃ d, parse_natural_language (gen (nl_prompt query)) = some d ∧
        allFieldsDefined d = true) ∧
    (∀ u : Unit, gen (nl_prompt query) = Except.error u →
      parse_natural_language (gen (nl_prompt query)) = none) ∧
    (∀ (u : Unit) (text : String), json_loads (clean_response text) = none →
      parse_natural_language (Except.error u) = parse_natural_language (Except.ok text)) := by
  refine ⟨?_, ?_, ?_⟩
  · cases hp : parse_natural_language (gen (nl_prompt query)) with
    | none => exact Or.inl rfl
    | some d => exact Or.inr ⟨d, rfl, parse_some_fields _ d hp⟩
  · intro u hu
    rw [hu]
    rfl
  · intro u text hj
    dsimp only [parse_natural_language]
    rw [hj]

/-- Witness for C3: a generator that always raises yields None. -/
theorem c3_never_raises_witness :
    parse_natural_language
      ((fun _ : String => (Except.error () : Except Unit String))
        (nl_prompt "5 days in Kerala with nature focus")) = none :=
  (c3_never_raises "5 days in Kerala with nature focus"
    (fun _ => Except.error ())).2.1 () rfl

/-- Claim C4: for every generator response consisting of a valid JSON
object (containing destination and duration) wrapped in markdown
code-fence markers, the normalizer strips the fence markers before parsing
and normalization still succeeds, producing the same request object as for
the unwrapped JSON. -/
theorem c4_fence_wrapped (s : String) (kvs : List (String × JVal))
    (hparse : json_loads (clean_response s) = some (JVal.jobj kvs))
    (hdest : hasKey kvs "destination" = true) (hdur : hasKey kvs "duration" = true) :
    parse_natural_language (Except.ok ("```json\n" ++ s ++ "\n```")) =
      parse_natural_language (Except.ok s) ∧
    parse_natural_language (Except.ok ("```json\n" ++ s ++ "\n```")) =
      some (applyDefaults kvs) := by
  have heq : parse_natural_language (Except.ok ("```json\n" ++ s ++ "\n```")) =
      parse_natural_language (Except.ok s) := by
    dsimp only [parse_natural_language]
    rw [clean_wrap s]
  exact ⟨heq, by rw [heq]; exact parse_ok_some s kvs hparse hdest hdur⟩

/-- Witness for C4: a concrete fenced response. -/
theorem c4_fence_wrapped_witness :
    parse_natural_language
        (Except.ok ("```json\n" ++ "\x7b\"destination\": \"Goa\", \"duration\": 3\x7d" ++ "\n```")) =
      parse_natural_language (Except.ok "\x7b\"destination\": \"Goa\", \"duration\": 3\x7d") ∧
    parse_natural_language
        (Except.ok ("```json\n" ++ "\x7b\"destination\": \"Goa\", \"duration\": 3\x7d" ++ "\n```")) =
      some (applyDefaults [("destination", JVal.jstr "Goa"), ("duration", JVal.jnum 3)]) :=
  c4_fence_wrapped "\x7b\"destination\": \"Goa\", \"duration\": 3\x7d"
    [("destination", JVal.jstr "Goa"), ("duration", JVal.jnum 3)]
    (by rfl) (by rfl) (by rfl)

/-- Counterexample to C6 as stated: the attraction lookup DOES raise for an
experience type outside the three dict keys, because the
`query_types[experience_type]` lookup happens before the `try` block
(`KeyError`, modelled by `Except.error`). -/
theorem c6_counterexample :
    get_top_attractions "Paris" "Luxury" (fun _ => Except.error ()) =
      Except.error () := rfl

/-- Claim C6 amended: for the three recognized experience types the lookup
never raises, and any failure of the fetch yields exactly the one-element
sentinel. -/
theorem c6_amended_sentinel_for_known_types (destination et : String)
    (het : et = "Most Famous" ∨ et = "Mix" ∨ et = "Offbeat Gems") :
    (∀ fetch, ∃ r, get_top_attractions destination et fetch = Except.ok r) ∧
    get_top_attractions destination et (fun _ => Except.error ()) =
      Except.ok ["Attractions list unavailable"] := by
  obtain ⟨q, hq⟩ : ∃ q, query_phrase destination et = some q := by
    rcases het with h | h | h <;> subst h <;> exact ⟨_, rfl⟩
  constructor
  · intro fetch
    unfold get_top_attractions
    rw [hq]
    dsimp only
    cases fetch (searchUrl q) with
    | error u => exact ⟨_, rfl⟩
    | ok hs => exact ⟨_, rfl⟩
  · unfold get_top_attractions
    rw [hq]

/-- Witness for the amended C6 at the Mix experience type. -/
theorem c6_amended_sentinel_witness :
    (∀ fetch, ∃ r, get_top_attractions "Kerala" "Mix" fetch = Except.ok r) ∧
    get_top_attractions "Kerala" "Mix" (fun _ => Except.error ()) =
      Except.ok ["Attractions list unavailable"] :=
  c6_amended_sentinel_for_known_types "Kerala" "Mix" (Or.inr (Or.inl rfl))

/-- Modelled from the spec: the extraction pipeline in the order the claim
states it, filtering out breadcrumb snippets first and then truncating to
the first 7 (compare with `extract_attractions`, the pipeline of the
code). -/
def spec_extract_attractions (headings : List String) : List String :=
  (headings.filter (fun t => !(t.toList.contains breadcrumbSep))).take 7

/-- Counterexample to C7 as stated: the code truncates to the first 7 h3
snippets BEFORE filtering (and also drops empty snippets), so on a page
whose first heading is a breadcrumb followed by seven good headings it
returns 6 items where the claimed filter-then-truncate pipeline returns
7. -/
theorem c7_counterexample :
    get_top_attractions "X" "Mix"
        (fun _ => Except.ok ["›x", "a1", "a2", "a3", "a4", "a5", "a6", "a7"]) =
      Except.ok ["a1", "a2", "a3", "a4", "a5", "a6"] ∧
    spec_extract_attractions ["›x", "a1", "a2", "a3", "a4", "a5", "a6", "a7"] =
      ["a1", "a2", "a3", "a4", "a5", "a6", "a7"] ∧
    (["a1", "a2", "a3", "a4", "a5", "a6"] : List String) ≠
      ["a1", "a2", "a3", "a4", "a5", "a6", "a7"] :=
  ⟨rfl, rfl, by decide⟩

/-- Claim C7 amended: the lookup maps the experience type to the three
fixed query phrasings, truncates the heading snippets to the first 7 and
THEN filters out the empty ones and those containing the breadcrumb
separator, and only the first 5 of the returned sequence are displayed. -/
theorem c7_amended_pipeline (destination : String) (hs : List String) :
    query_phrase destination "Most Famous" = some ("top 10 attractions in " ++ destination) ∧
    query_phrase destination "Mix" = some ("best things to do in " ++ destination) ∧
    query_phrase destination "Offbeat Gems" = some ("hidden gems in " ++ destination) ∧
    get_top_attractions destination "Mix" (fun _ => Except.ok hs) =
      Except.ok ((hs.take 7).filter h3Keep) ∧
    displayed_attractions ((hs.take 7).filter h3Keep) =
      ((hs.take 7).filter h3Keep).take 5 ∧
    (displayed_attractions ((hs.take 7).filter h3Keep)).length ≤ 5 := by
  refine ⟨rfl, rfl, rfl, rfl, rfl, ?_⟩
  simp [displayed_attractions, List.length_take]

/-- Counterexample to C8 as stated: a response whose destination value is
the empty string is accepted by the normalizer, so the destination of an
accepted request is not always a non-empty string (the code never checks
emptiness, only key presence). -/
theorem c8_counterexample :
    parse_natural_language (Except.ok "\x7b\"destination\": \"\", \"duration\": 5\x7d") =
      some [("destination", JVal.jstr ""), ("duration", JVal.jnum 5),
        ("budget", JVal.jstr "Mid-range"), ("interests", JVal.jarr []),
        ("experience_type", JVal.jstr "Mix")] ∧
    getKey [("destination", JVal.jstr ""), ("duration", JVal.jnum 5),
        ("budget", JVal.jstr "Mid-range"), ("interests", JVal.jarr []),
        ("experience_type", JVal.jstr "Mix")] "destination" = some (JVal.jstr "") :=
  ⟨rfl, rfl⟩

/-- Claim C8 amended: after successful normalization the destination key is
always present in the returned request object (but its value is not
validated, so it may be the empty string or a non-string). -/
theorem c8_amended_destination_defined (resp : Except Unit String)
    (d : List (String × JVal)) (h : parse_natural_language resp = some d) :
    hasKey d "destination" = true := by
  have hf := parse_some_fields resp d h
  simp [allFieldsDefined] at hf
  tauto

/-- Witness for the amended C8. -/
theorem c8_amended_destination_defined_witness :
    hasKey [("destination", JVal.jstr "Agra"), ("duration", JVal.jnum 2),
      ("budget", JVal.jstr "Mid-range"), ("interests", JVal.jarr []),
      ("experience_type", JVal.jstr "Mix")] "destination" = true :=
  c8_amended_destination_defined
    (Except.ok "\x7b\"destination\": \"Agra\", \"duration\": 2\x7d")
    [("destination", JVal.jstr "Agra"), ("duration", JVal.jnum 2),
      ("budget", JVal.jstr "Mid-range"), ("interests", JVal.jarr []),
      ("experience_type", JVal.jstr "Mix")] (by rfl)

/-- Claim C9: for every valid TravelRequest, if the external
text-generation call inside the itinerary composer raises, the composer
returns the fixed fallback message and never propagates the exception. -/
theorem c9_fallback_on_exception (r : TravelRequest)
    (gen : String → Except Unit String) (u : Unit)
    (h : gen (itinerary_prompt r) = Except.error u) :
    generate_itinerary r gen =
      "Could not generate itinerary. Please try again with more details." := by
  unfold generate_itinerary
  rw [h]

/-- Witness for C9: a generator that always raises. -/
theorem c9_fallback_on_exception_witness :
    generate_itinerary ⟨"Kerala", 5, "Mid-range", ["Nature"], "Mix"⟩
        (fun _ => Except.error ()) =
      "Could not generate itinerary. Please try again with more details." :=
  c9_fallback_on_exception ⟨"Kerala", 5, "Mid-range", ["Nature"], "Mix"⟩
    (fun _ => Except.error ()) () rfl

/-- Claim C10: the fence stripping removes every occurrence of the fence
markers anywhere in the response (no three-backtick sequence survives in
the cleaned text), and in particular a response whose JSON string value
contains fence markers has them removed from the field value before
parsing: the destination written as Ker```ala is parsed as Kerala. -/
theorem c10_strip_everywhere :
    (∀ l : List Char, hasFence (stripFences l) = false) ∧
    parse_natural_language
        (Except.ok "\x7b\"destination\": \"Ker```ala\", \"duration\": 2\x7d") =
      some [("destination", JVal.jstr "Kerala"), ("duration", JVal.jnum 2),
        ("budget", JVal.jstr "Mid-range"), ("interests", JVal.jarr []),
        ("experience_type", JVal.jstr "Mix")] :=
  ⟨strip_no_fence, rfl⟩
